import Mathlib

/-!
Shallow embedding of the train-chatbot service (`src/main.py`) and proofs
about the claims of its specification.

Modelling conventions:
* Python strings are Lean `String`s (lists of characters); the station data
  is ASCII, so `str.strip` / `str.upper` / `str.lower` are embedded as
  ASCII-only character maps.
* The JSON timetable file is modelled as `Option (List (String × List RawStop))`:
  `none` is a missing/unreadable/non-dictionary source (the `except` path of
  `main.py`, lines 17-45), `some entries` a JSON object in insertion order.
* `STATION_NAME_CODE_PAIRS` is a Python `set`; its (arbitrary) iteration
  order is modelled by passing an explicit list of pairs to
  `resolve_station_name`, so order-(in)dependence can be quantified over.
* `difflib.get_close_matches` is embedded down to `SequenceMatcher`'s
  matching-blocks computation.  The junk/autojunk heuristics are vacuous
  here (no junk argument is passed, and autojunk only affects inputs of
  200+ characters); the `real_quick_ratio`/`quick_ratio` prefilters are
  upper bounds of `ratio` and hence do not change which candidates pass
  the cutoff.  Ratios `2*M/T` are compared exactly as rationals: the float
  rounding of CPython cannot reorder rationals whose denominators are the
  modest string lengths involved.
-/

/-! ### Python string primitives (ASCII) -/

/-- Default whitespace characters of Python's `str.strip` (ASCII range). -/
def isSpaceCh (c : Char) : Bool :=
  c = ' ' || c = '\t' || c = '\n' || c = '\x0d' || c = '\x0b' || c = '\x0c'

/-- ASCII `str.upper` on a single character: map `a`-`z` (code points
97-122) to `A`-`Z` (65-90), anything else unchanged. -/
def upChar (c : Char) : Char :=
  if 97 ≤ c.toNat ∧ c.toNat ≤ 122 then Char.ofNat (c.toNat - 32) else c

/-- ASCII `str.lower` on a single character: map `A`-`Z` to `a`-`z`. -/
def lowChar (c : Char) : Char :=
  if 65 ≤ c.toNat ∧ c.toNat ≤ 90 then Char.ofNat (c.toNat + 32) else c

/-- `str.strip()` on a character list: drop whitespace at both ends. -/
def pyStripL (l : List Char) : List Char :=
  ((l.dropWhile isSpaceCh).reverse.dropWhile isSpaceCh).reverse

/-- Python `s.strip()`. -/
def pyStrip (s : String) : String := ⟨pyStripL s.data⟩

/-- Python `s.upper()` (ASCII). -/
def pyUpper (s : String) : String := ⟨s.data.map upChar⟩

/-- Python `s.lower()` (ASCII). -/
def pyLower (s : String) : String := ⟨s.data.map lowChar⟩

/-- `s.strip().upper()`, the normalization applied throughout `main.py`. -/
def pyNormalize (s : String) : String := pyUpper (pyStrip s)

/-- Python `s.replace("'", "")`: remove every apostrophe. -/
def removeQuotes (s : String) : String :=
  ⟨s.data.filter (fun c => c ≠ Char.ofNat 39)⟩

/-- Does `l` start with `sub`?  (Helper for Python's `in` on strings.) -/
def headMatches : List Char → List Char → Bool
  | _, [] => true
  | [], _ :: _ => false
  | c :: cs, d :: ds => c = d && headMatches cs ds

/-- Python's `sub in l` for strings: contiguous-substring test. -/
def hasSub : List Char → List Char → Bool
  | l, sub =>
    if headMatches l sub then true
    else match l with
      | [] => false
      | _ :: cs => hasSub cs sub

/-! ### difflib: SequenceMatcher matching blocks -/

/-- Length of the common run at the head of two suffixes
(`a[i] == b[j], a[i+1] == b[j+1], ...`). -/
def runLen : List Char → List Char → Nat
  | a :: as, b :: bs => if a = b then runLen as bs + 1 else 0
  | _, _ => 0

/-- Longest match starting at `(i, j)` that stays inside the ranges
`[i, ahi)` / `[j, bhi)`. -/
def cappedRun (a b : List Char) (i j ahi bhi : Nat) : Nat :=
  min (runLen (a.drop i) (b.drop j)) (min (ahi - i) (bhi - j))

/-- All start positions `(i, j)` of candidate blocks, in the scan order of
`SequenceMatcher.find_longest_match` (outer index ascending, inner index
ascending). -/
def blockStarts (alo ahi blo bhi : Nat) : List (Nat × Nat) :=
  (List.range' alo (ahi - alo)).flatMap
    (fun i => (List.range' blo (bhi - blo)).map (fun j => (i, j)))

/-- `SequenceMatcher.find_longest_match(alo, ahi, blo, bhi)` (no junk):
the longest matching block, earliest in `a` then earliest in `b` on ties,
as guaranteed by difflib's documentation. -/
def bestBlock (a b : List Char) (alo ahi blo bhi : Nat) : Nat × Nat × Nat :=
  (blockStarts alo ahi blo bhi).foldl
    (fun best ij =>
      let k := cappedRun a b ij.1 ij.2 ahi bhi
      if best.2.2 < k then (ij.1, ij.2, k) else best)
    (alo, blo, 0)

/-- Sum of the sizes of `SequenceMatcher.get_matching_blocks`: take the best
block, recurse on the region before it and the region after it.  The `fuel`
argument only bounds the recursion depth; each recursive call strictly
shrinks `(ahi - alo) + (bhi - blo)`, so `fuel` larger than that measure
never runs out. -/
def blocksSumF (a b : List Char) : Nat → Nat → Nat → Nat → Nat → Nat
  | 0, _, _, _, _ => 0
  | fuel + 1, alo, ahi, blo, bhi =>
    match bestBlock a b alo ahi blo bhi with
    | (i, j, k) =>
      if k = 0 then 0
      else
        blocksSumF a b fuel alo i blo j + k + blocksSumF a b fuel (i + k) ahi (j + k) bhi

/-- Total number of matched characters between `a` and `b`
(the `M` of difflib's `ratio() = 2.0 * M / T`). -/
def matchTotal (a b : List Char) : Nat :=
  blocksSumF a b (a.length + b.length + 1) 0 a.length 0 b.length

/-- `SequenceMatcher.ratio() >= 0.75`, compared exactly:
`2*M/T ≥ 3/4  ↔  8*M ≥ 3*T`. -/
def meetsCutoff (name word : List Char) : Bool :=
  decide (3 * (name.length + word.length) ≤ 8 * matchTotal name word)

/-- Code-point lexicographic `<` on character lists (Python string `<`). -/
def strLtCp : List Char → List Char → Bool
  | [], [] => false
  | [], _ :: _ => true
  | _ :: _, [] => false
  | a :: as, b :: bs =>
    if a.toNat < b.toNat then true
    else if b.toNat < a.toNat then false
    else strLtCp as bs

/-- Python's comparison `(ratio_x, x) > (ratio_y, y)` of the scored
candidates inside `heapq.nlargest` / `max`: compare the ratios as exact
rationals by cross-multiplication, break ties by the string. -/
def scoredGt (x y word : List Char) : Bool :=
  if matchTotal y word * (x.length + word.length) <
      matchTotal x word * (y.length + word.length) then true
  else if matchTotal x word * (y.length + word.length) <
      matchTotal y word * (x.length + word.length) then false
  else strLtCp y x

/-- `difflib.get_close_matches(word, names, n=1, cutoff=0.75)`, returning
the single best candidate if any qualifies: filter by the cutoff, then take
the maximum of the `(score, name)` pairs, keeping the earliest on full ties
(CPython `max`). -/
def closeMatchBest (word : List Char) (names : List (List Char)) : Option (List Char) :=
  (names.filter (fun a => meetsCutoff a word)).foldl
    (fun best a =>
      match best with
      | none => some a
      | some b => if scoredGt a b word then some a else some b)
    none

/-! ### Station resolution (`resolve_station_name`, `main.py` lines 61-81)

`pairs` is the content of the global set `STATION_NAME_CODE_PAIRS` in its
(arbitrary) iteration order. -/

def resolve_station_name (pairs : List (String × String)) (input_text : String) :
    Option String :=
  if pyNormalize input_text ∈ pairs.map Prod.snd then some (pyNormalize input_text)
  else
    match pairs.find? (fun p => p.1 = pyNormalize input_text) with
    | some p => some p.2
    | none =>
      match closeMatchBest (pyNormalize input_text).data
          ((pairs.map Prod.fst).map String.data) with
      | some best => (pairs.find? (fun p => p.1.data = best)).map Prod.snd
      | none => none

/-! ### Timetable store (`main.py` lines 13-58) -/

/-- One raw stop record of the JSON timetable: `stop.get(key, "")` returns
the stored string or the default, so every field is an `Option String`. -/
structure RawStop where
  trainName : Option String
  stationName : Option String
  stationCode : Option String
  arrivalTime : Option String
  departureTime : Option String
deriving DecidableEq

/-- A normalized stop of a loaded route (`main.py` lines 28-33). -/
structure TrainStop where
  station_name : String
  station_code : String
  arrival : String
  departure : String
deriving DecidableEq, Inhabited

/-- A loaded train (`main.py` lines 34-38). -/
structure Train where
  train_no : String
  train_name : String
  route : List TrainStop
deriving DecidableEq

/-- Building `TRAIN_DATA` (lines 17-45): `none` models a missing, unreadable
or non-dictionary source (the `except`/`raise` path sets `TRAIN_DATA = []`);
`some entries` models the JSON object in insertion order.  An entry whose
stop list is empty is skipped (`if stops and isinstance(stops, list)`);
every stop record of a kept entry is normalized and kept. -/
def loadTrainData (raw : Option (List (String × List RawStop))) : List Train :=
  match raw with
  | none => []
  | some entries =>
    entries.filterMap (fun entry =>
      match entry.2 with
      | [] => none
      | s0 :: _ =>
        some { train_no := removeQuotes (pyStrip entry.1),
               train_name := pyStrip (s0.trainName.getD ""),
               route := entry.2.map (fun st =>
                 { station_name := pyNormalize (st.stationName.getD ""),
                   station_code := pyNormalize (st.stationCode.getD ""),
                   arrival := removeQuotes (pyStrip (st.arrivalTime.getD "")),
                   departure := removeQuotes (pyStrip (st.departureTime.getD "")) }) })

/-- Building `STATION_NAME_CODE_PAIRS` (lines 47-58).  The Python value is a
set; we keep first occurrences in scan order as one canonical iteration
order (theorems that depend on the order quantify over arbitrary pair
lists instead). -/
def buildPairs (data : List Train) : List (String × String) :=
  (((data.map (fun t => t.route.map
      (fun s => (pyNormalize s.station_name, pyNormalize s.station_code)))).flatten).filter
    (fun p => decide (p.1 ≠ "" ∧ p.2 ≠ ""))).dedup

/-! ### Intent classification (`main.py` lines 83-110) -/

/-- The fallback intent keyword table, in dict insertion order. -/
def FALLBACK_INTENTS : List (String × List String) :=
  [("train_search", ["show me trains", "train between", "trains from", "train to"]),
   ("train_status", ["status", "live status", "running status"]),
   ("seat_availability", ["seats", "available", "check seat"])]

/-- `kw.lower() in user_input.lower()`. -/
def kwHit (user_input kw : String) : Bool :=
  hasSub (pyLower user_input).data (pyLower kw).data

/-- Lines 103-108: the first label whose keyword list has a hit wins;
no hit leaves the intent `"unknown"`. -/
def classifyIntent (user_input : String) : String :=
  match FALLBACK_INTENTS.find? (fun li => li.2.any (fun kw => kwHit user_input kw)) with
  | some li => li.1
  | none => "unknown"

/-! ### Route search and response (`main.py` lines 94-169) -/

/-- One entry of `trains_found` (lines 143-150), with the dictionary keys
of the source as field names. -/
structure TrainResult where
  train_no : String
  train_name : String
  source : String
  destination : String
  source_departure : String
  destination_arrival : String
deriving DecidableEq, Inhabited

/-- The scan over `TRAIN_DATA` (lines 135-150): a train contributes one
result when both codes occur in its stop-code list and the first occurrence
of the source (`list.index`) is strictly before the first occurrence of the
destination. -/
def searchTrains (data : List Train) (source destination : String) : List TrainResult :=
  data.filterMap (fun train =>
    let stations := train.route.map (fun s => s.station_code)
    if source ∈ stations ∧ destination ∈ stations then
      let src_index := stations.indexOf source
      let dest_index := stations.indexOf destination
      if src_index < dest_index then
        some { train_no := train.train_no,
               train_name := train.train_name,
               source := source,
               destination := destination,
               source_departure := (train.route.getD src_index default).departure,
               destination_arrival := (train.route.getD dest_index default).arrival }
      else none
    else none)

/-- The sort key of line 153: `t.get("source_departure") or "99:99:99"`
(the departure is always a string here, so only the empty string is
replaced by the sentinel). -/
def sortKey (t : TrainResult) : String :=
  if t.source_departure = "" then "99:99:99" else t.source_departure

/-- Python string `<=` (code-point lexicographic, the comparison used by
`list.sort` on the string keys): `a <= b` iff `not (b < a)`. -/
def pyStrLe (a b : String) : Bool := !(strLtCp b.data a.data)

def depLe (a b : TrainResult) : Prop := pyStrLe (sortKey a) (sortKey b) = true

instance : DecidableRel depLe :=
  fun a b => inferInstanceAs (Decidable (pyStrLe (sortKey a) (sortKey b) = true))

/-- Line 153.  CPython's `list.sort` is a stable sort; a stable sort with
respect to a total preorder is unique, so the stable insertion sort is the
same function. -/
def sortByDeparture (l : List TrainResult) : List TrainResult :=
  l.insertionSort depLe

/-- The JSON response of lines 159-169: `entities` and each member of
`trains` are Python dictionaries, modelled as association lists so that
the set of keys is part of the model. -/
structure ChatResponse where
  intent : String
  entities : List (String × Option String)
  trains : List (List (String × String))
deriving DecidableEq

/-- The `/chatbot` handler (lines 94-169).  The regex entity extraction and
`dateparser` call of lines 113-130 sit at the external-collaborator
boundary: `srcSpan`/`dstSpan` are the captured spans of the `from ...`/
`to ...` patterns (`none` when the pattern found nothing) and `dateVal` the
formatted parsed date.  Everything after those spans is embedded from the
source. -/
def chatbotCore (data : List Train) (pairs : List (String × String))
    (message : String) (srcSpan dstSpan dateVal : Option String) : ChatResponse :=
  let user_input := pyStrip message
  let intent := classifyIntent user_input
  let source := srcSpan.bind (fun s => resolve_station_name pairs (pyStrip s))
  let destination := dstSpan.bind (fun s => resolve_station_name pairs (pyStrip s))
  let date := dateVal
  let trains_found :=
    if intent = "train_search" ∧ source.getD "" ≠ "" ∧ destination.getD "" ≠ "" then
      sortByDeparture (searchTrains data (source.getD "") (destination.getD ""))
    else []
  { intent := intent,
    entities := [("source", source), ("destination", destination), ("date", date)],
    trains := trains_found.map (fun t =>
      [("train_no", t.train_no), ("train_name", t.train_name),
       ("source", t.source), ("destination", t.destination),
       ("source_departure", t.source_departure),
       ("destination_arrival", t.destination_arrival)]) }

/-! ### A parseable time of day (for the sorting claim) -/

def isDig (c : Char) : Bool := decide ('0' ≤ c) && decide (c ≤ '9')

/-- A parseable `HH:MM:SS` time-of-day string (`00:00:00` .. `23:59:59`). -/
def validTime (s : String) : Bool :=
  match s.data with
  | [h1, h2, c1, m1, m2, c2, p1, p2] =>
    decide (c1 = ':') && decide (c2 = ':') && isDig h2 && isDig m2 && isDig p2 &&
    (decide (h1 = '0') || decide (h1 = '1') || (decide (h1 = '2') && decide (h2 ≤ '3'))) &&
    (decide ('0' ≤ m1) && decide (m1 ≤ '5')) && (decide ('0' ≤ p1) && decide (p1 ≤ '5'))
  | _ => false

/-! ### Specification-side search (for the refinement claim about search)

Stated with least-index searches (`findIdx?`) following the spec's "index of
first occurrence" wording, to be compared with the code's
membership-plus-`list.index` formulation. -/

/-- Search rule stated spec-side: a route qualifies when both codes occur
and the least index of the source precedes the least index of the
destination; the emitted times are read at those two indices. -/
def searchTrainsFirstIdx (data : List Train) (source destination : String) :
    List TrainResult :=
  data.filterMap (fun train =>
    let stations := train.route.map (fun s => s.station_code)
    match stations.findIdx? (fun c => c = source),
          stations.findIdx? (fun c => c = destination) with
    | some i, some j =>
      if i < j then
        some { train_no := train.train_no,
               train_name := train.train_name,
               source := source,
               destination := destination,
               source_departure := (train.route.getD i default).departure,
               destination_arrival := (train.route.getD j default).arrival }
      else none
    | _, _ => none)

/-! ### Concrete fixtures used by counterexamples and witnesses -/

def exTrain : Train :=
  { train_no := "101", train_name := "EXP",
    route := [{ station_name := "ALPHA", station_code := "AA",
                arrival := "", departure := "10:00:00" },
              { station_name := "BETA", station_code := "BB",
                arrival := "11:00:00", departure := "" }] }

def exData : List Train := [exTrain]

def exPairs : List (String × String) := [("ALPHA", "AA"), ("BETA", "BB")]

/-- A train-search request against `exData` with both spans captured. -/
def exResp : ChatResponse :=
  chatbotCore exData exPairs "show me trains from ALPHA to BETA"
    (some "ALPHA") (some "BETA") none

/-- A non-search request against `exData` with both spans captured. -/
def exRespStatus : ChatResponse :=
  chatbotCore exData exPairs "running status from ALPHA to BETA"
    (some "ALPHA") (some "BETA") none

/-- Station index with a single station whose name strictly contains
`"CDEF"` but is too long for the 0.75 fuzzy cutoff. -/
def c2Pairs : List (String × String) := [("ABCDEFGH", "XY")]

/-- A loop route: the destination code appears both before and after the
first occurrence of the source code. -/
def loopTrain : Train :=
  { train_no := "303", train_name := "LOOP",
    route := [{ station_name := "GAMMA", station_code := "C",
                arrival := "", departure := "" },
              { station_name := "ALPHA", station_code := "A",
                arrival := "", departure := "09:00:00" },
              { station_name := "GAMMA", station_code := "C",
                arrival := "10:00:00", departure := "" }] }

def loopData : List Train := [loopTrain]

/-- Departure `"0X:00:00"` is nonempty but not a parseable time. -/
def badTimeTrain : Train :=
  { train_no := "T1", train_name := "N1",
    route := [{ station_name := "ALPHA", station_code := "A",
                arrival := "", departure := "0X:00:00" },
              { station_name := "BETA", station_code := "B",
                arrival := "11:00:00", departure := "" }] }

def goodTimeTrain : Train :=
  { train_no := "T2", train_name := "N2",
    route := [{ station_name := "ALPHA", station_code := "A",
                arrival := "", departure := "10:00:00" },
              { station_name := "BETA", station_code := "B",
                arrival := "12:00:00", departure := "" }] }

/-- Departure missing (empty string) at the source stop. -/
def emptyDepTrain : Train :=
  { train_no := "T3", train_name := "N3",
    route := [{ station_name := "ALPHA", station_code := "A",
                arrival := "", departure := "" },
              { station_name := "BETA", station_code := "B",
                arrival := "13:00:00", departure := "" }] }

def mixedData : List Train := [badTimeTrain, goodTimeTrain]

def valEmptyData : List Train := [emptyDepTrain, goodTimeTrain]

/-- Raw source whose only stop has surrounding whitespace and lowercase in
its name and code. -/
def c6Raw : Option (List (String × List RawStop)) :=
  some [("101", [{ trainName := some "EXP", stationName := some " alpha ",
                   stationCode := some " aa ", arrivalTime := none,
                   departureTime := none }])]

/-- A raw stop record with no `Station_Name` key. -/
def c7Stop : RawStop :=
  { trainName := some "EXP", stationName := none, stationCode := some "CC",
    arrivalTime := none, departureTime := none }

/-- Raw source whose only stop record has no `Station_Name` key. -/
def c7Raw : Option (List (String × List RawStop)) :=
  some [("7", [c7Stop])]

/-- Two station names that tie at exactly the 0.75 cutoff for the input
`"ABCD"`; `"ABCX" < "ABCZ"` lexicographically. -/
def c8Pairs : List (String × String) := [("ABCX", "X1"), ("ABCZ", "Z1")]

/-! ## Helper lemmas -/

/-- Fold invariant helper (the invariant holds of the initial value and is
preserved by every step on list members). -/
theorem foldl_invariant {α β : Type} {P : β → Prop} (f : β → α → β) (l : List α) (init : β)
    (hinit : P init) (hstep : ∀ b a, a ∈ l → P b → P (f b a)) : P (l.foldl f init) := by
  induction l generalizing init with
  | nil => exact hinit
  | cons x xs ih =>
    exact ih _ (hstep _ _ (by simp) hinit)
      (fun b a ha hb => hstep b a (by simp [ha]) hb)

theorem toNat_ofNat_valid {n : Nat} (h : n < 55296) : (Char.ofNat n).toNat = n := by
  rw [Char.ofNat, dif_pos (Or.inl h)]
  rfl

theorem charEq_iff_toNat {c d : Char} : c = d ↔ c.toNat = d.toNat := by
  constructor
  · intro h; rw [h]
  · intro h
    exact Char.ext (UInt32.toNat.inj h)

theorem toNat_upChar_of_lower {c : Char} (h : 97 ≤ c.toNat ∧ c.toNat ≤ 122) :
    (upChar c).toNat = c.toNat - 32 := by
  rw [upChar, if_pos h, toNat_ofNat_valid (by omega)]

theorem upChar_upChar (c : Char) : upChar (upChar c) = upChar c := by
  by_cases h : 97 ≤ c.toNat ∧ c.toNat ≤ 122
  · have hup := toNat_upChar_of_lower h
    rw [upChar, if_neg]
    rw [hup]
    omega
  · have he : upChar c = c := by rw [upChar, if_neg h]
    rw [he]
    exact he

theorem isSpaceCh_iff_toNat (c : Char) :
    isSpaceCh c = true ↔
      (c.toNat = 32 ∨ c.toNat = 9 ∨ c.toNat = 10 ∨ c.toNat = 13 ∨
       c.toNat = 11 ∨ c.toNat = 12) := by
  simp only [isSpaceCh, Bool.or_eq_true, decide_eq_true_eq, charEq_iff_toNat]
  have e1 : (' ' : Char).toNat = 32 := rfl
  have e2 : ('\t' : Char).toNat = 9 := rfl
  have e3 : ('\n' : Char).toNat = 10 := rfl
  have e4 : ('\x0d' : Char).toNat = 13 := rfl
  have e5 : ('\x0b' : Char).toNat = 11 := rfl
  have e6 : ('\x0c' : Char).toNat = 12 := rfl
  rw [e1, e2, e3, e4, e5, e6]
  tauto

theorem isSpaceCh_upChar (c : Char) : isSpaceCh (upChar c) = isSpaceCh c := by
  by_cases h : 97 ≤ c.toNat ∧ c.toNat ≤ 122
  · have hup := toNat_upChar_of_lower h
    have h1 : isSpaceCh (upChar c) = false := by
      rw [← Bool.not_eq_true, isSpaceCh_iff_toNat, hup]
      omega
    have h2 : isSpaceCh c = false := by
      rw [← Bool.not_eq_true, isSpaceCh_iff_toNat]
      omega
    rw [h1, h2]
  · rw [upChar, if_neg h]

theorem strLtCp_irrefl (a : List Char) : strLtCp a a = false := by
  induction a with
  | nil => rfl
  | cons c cs ih => simp [strLtCp, ih]

theorem strLtCp_asymm : ∀ a b, strLtCp a b = true → strLtCp b a = false := by
  intro a
  induction a with
  | nil => intro b h; cases b <;> simp [strLtCp] at h ⊢
  | cons c cs ih =>
    intro b h
    cases b with
    | nil => simp [strLtCp] at h
    | cons d ds =>
      simp only [strLtCp] at h ⊢
      by_cases h1 : c.toNat < d.toNat
      · have h2 : ¬ d.toNat < c.toNat := by omega
        simp [h1, h2]
      · by_cases h2 : d.toNat < c.toNat
        · simp [h1, h2] at h
        · simp only [h1, h2, if_neg, if_false] at h ⊢
          simpa using ih ds (by simpa using h)

theorem strLtCp_conn : ∀ a b, strLtCp a b = false → strLtCp b a = false → a = b := by
  intro a
  induction a with
  | nil =>
    intro b h1 _
    cases b with
    | nil => rfl
    | cons d ds => simp [strLtCp] at h1
  | cons c cs ih =>
    intro b h1 h2
    cases b with
    | nil => simp [strLtCp] at h2
    | cons d ds =>
      simp only [strLtCp] at h1 h2
      by_cases hcd : c.toNat < d.toNat
      · simp [hcd] at h1
      · by_cases hdc : d.toNat < c.toNat
        · simp [hdc] at h2
        · have hc : c = d := charEq_iff_toNat.mpr (by omega)
          subst hc
          simp only [hcd, hdc, if_neg, if_false] at h1 h2
          rw [ih ds (by simpa using h1) (by simpa using h2)]

theorem strLtCp_trans : ∀ a b c, strLtCp a b = true → strLtCp b c = true →
    strLtCp a c = true := by
  intro a
  induction a with
  | nil =>
    intro b c h1 h2
    cases b with
    | nil => simp [strLtCp] at h1
    | cons d ds =>
      cases c with
      | nil => simp [strLtCp] at h2
      | cons e es => simp [strLtCp]
  | cons x xs ih =>
    intro b c h1 h2
    cases b with
    | nil => simp [strLtCp] at h1
    | cons d ds =>
      cases c with
      | nil => simp [strLtCp] at h2
      | cons e es =>
        simp only [strLtCp] at h1 h2 ⊢
        by_cases hxd : x.toNat < d.toNat
        · by_cases hde : d.toNat < e.toNat
          · simp [show x.toNat < e.toNat by omega]
          · by_cases hed : e.toNat < d.toNat
            · simp [hde, hed] at h2
            · have : d.toNat = e.toNat := by omega
              simp [show x.toNat < e.toNat by omega]
        · by_cases hdx : d.toNat < x.toNat
          · simp [hxd, hdx] at h1
          · have hx : x.toNat = d.toNat := by omega
            by_cases hde : d.toNat < e.toNat
            · simp [show x.toNat < e.toNat by omega]
            · by_cases hed : e.toNat < d.toNat
              · simp [hde, hed] at h2
              · have hxe : ¬ x.toNat < e.toNat := by omega
                have hex : ¬ e.toNat < x.toNat := by omega
                simp only [hxd, hdx, if_neg, if_false] at h1
                simp only [hde, hed, if_neg, if_false] at h2
                simp only [hxe, hex, if_neg, if_false]
                simpa using ih ds es (by simpa using h1) (by simpa using h2)

theorem depLe_total (a b : TrainResult) : depLe a b ∨ depLe b a := by
  unfold depLe pyStrLe
  by_cases h : strLtCp (sortKey b).data (sortKey a).data = true
  · right
    simp [strLtCp_asymm _ _ h]
  · left
    simp only [Bool.not_eq_true] at h
    simp [h]

theorem depLe_trans {a b c : TrainResult} (h1 : depLe a b) (h2 : depLe b c) :
    depLe a c := by
  unfold depLe pyStrLe at h1 h2 ⊢
  simp only [Bool.not_eq_true'] at h1 h2 ⊢
  by_contra hca
  simp only [Bool.not_eq_false] at hca
  by_cases hbc : strLtCp (sortKey b).data (sortKey c).data = true
  · have := strLtCp_trans _ _ _ hbc hca
    rw [h1] at this; cases this
  · simp only [Bool.not_eq_true] at hbc
    have heq := strLtCp_conn _ _ hbc h2
    rw [← heq] at hca
    rw [h1] at hca; cases hca

theorem dropWhile_map_upChar (l : List Char) :
    (l.map upChar).dropWhile isSpaceCh = (l.dropWhile isSpaceCh).map upChar := by
  rw [List.dropWhile_map]
  have h : isSpaceCh ∘ upChar = isSpaceCh := funext isSpaceCh_upChar
  rw [h]

theorem pyStripL_map_upChar (l : List Char) :
    pyStripL (l.map upChar) = (pyStripL l).map upChar := by
  unfold pyStripL
  rw [dropWhile_map_upChar, ← List.map_reverse, dropWhile_map_upChar, List.map_reverse]

theorem pyStripL_eq_rdrop (l : List Char) :
    pyStripL l = List.rdropWhile isSpaceCh (l.dropWhile isSpaceCh) := rfl

theorem dropWhile_eq_self_of_head {α : Type} (p : α → Bool) (m : List α)
    (h : ∀ x, m.head? = some x → p x = false) : m.dropWhile p = m := by
  cases m with
  | nil => rfl
  | cons x xs =>
    rw [List.dropWhile_cons, h x rfl]
    simp

theorem head?_dropWhile_false {α : Type} (p : α → Bool) (l : List α) :
    ∀ x, (l.dropWhile p).head? = some x → p x = false := by
  induction l with
  | nil => intro x h; cases h
  | cons a as ih =>
    intro x h
    rw [List.dropWhile_cons] at h
    by_cases hp : p a = true
    · rw [if_pos hp] at h
      exact ih x h
    · rw [if_neg hp] at h
      simp only [List.head?_cons, Option.some.injEq] at h
      subst h
      exact Bool.eq_false_iff.mpr hp

theorem pyStripL_idem (l : List Char) : pyStripL (pyStripL l) = pyStripL l := by
  rw [pyStripL_eq_rdrop l, pyStripL_eq_rdrop]
  have h1 : List.dropWhile isSpaceCh
      (List.rdropWhile isSpaceCh (l.dropWhile isSpaceCh)) =
      List.rdropWhile isSpaceCh (l.dropWhile isSpaceCh) := by
    apply dropWhile_eq_self_of_head
    intro x hx
    rcases List.rdropWhile_prefix isSpaceCh (l.dropWhile isSpaceCh) with ⟨t, ht⟩
    have hxm : (l.dropWhile isSpaceCh).head? = some x := by
      rw [← ht]
      cases hrm : List.rdropWhile isSpaceCh (l.dropWhile isSpaceCh) with
      | nil => rw [hrm] at hx; cases hx
      | cons y ys =>
        rw [hrm] at hx
        simp only [List.head?_cons, Option.some.injEq] at hx
        subst hx
        rfl
    exact head?_dropWhile_false isSpaceCh l x hxm
  rw [h1, List.rdropWhile_idempotent]

theorem pyNormalize_idem (s : String) : pyNormalize (pyNormalize s) = pyNormalize s := by
  have h : ∀ t : String, pyNormalize t = ⟨(pyStripL t.data).map upChar⟩ := fun _ => rfl
  rw [h]
  congr 1
  have hd : (pyNormalize s).data = (pyStripL s.data).map upChar := rfl
  have hd2 : (pyStrip s).data = pyStripL s.data := rfl
  rw [hd, hd2, pyStripL_map_upChar, pyStripL_idem, List.map_map]
  have hc : upChar ∘ upChar = upChar := funext upChar_upChar
  rw [hc]

theorem pyNormalize_fix {s : String} {x : String} (h : s = pyNormalize x) :
    pyNormalize s = s := by
  rw [h, pyNormalize_idem]

/-- Every pair of the built station index has a nonempty name and code, and
both are fixed points of the normalization. -/
theorem buildPairs_mem {data : List Train} {p : String × String}
    (h : p ∈ buildPairs data) :
    p.1 ≠ "" ∧ p.2 ≠ "" ∧ pyNormalize p.1 = p.1 ∧ pyNormalize p.2 = p.2 := by
  unfold buildPairs at h
  rw [List.mem_dedup, List.mem_filter] at h
  obtain ⟨hmem, hpred⟩ := h
  have hne : p.1 ≠ "" ∧ p.2 ≠ "" := of_decide_eq_true hpred
  rcases List.mem_flatten.1 hmem with ⟨inner, hin, hpin⟩
  rcases List.mem_map.1 hin with ⟨t, _, rfl⟩
  rcases List.mem_map.1 hpin with ⟨st, _, rfl⟩
  exact ⟨hne.1, hne.2, pyNormalize_fix rfl, pyNormalize_fix rfl⟩

/-! ## Claims -/

/-- C5: if the timetable source is empty or malformed, the store loads as
empty (zero routes, zero stations) instead of failing, and every subsequent
search over it returns the empty list. -/
theorem c5_empty_or_malformed_source_degrades :
    loadTrainData none = [] ∧ loadTrainData (some []) = [] ∧
    buildPairs (loadTrainData none) = [] ∧ buildPairs (loadTrainData (some [])) = [] ∧
    (∀ src dst : String, searchTrains (loadTrainData none) src dst = []) ∧
    (∀ src dst : String, searchTrains (loadTrainData (some [])) src dst = []) :=
  ⟨rfl, rfl, rfl, rfl, fun _ _ => rfl, fun _ _ => rfl⟩

/-- C6: `resolve` is idempotent on codes: for every station code present in
the store's code set (under any iteration order of the station-pair set),
resolving that code returns the code itself. -/
theorem c6_resolve_idempotent_on_codes (raw : Option (List (String × List RawStop)))
    (pairs : List (String × String))
    (hperm : pairs.Perm (buildPairs (loadTrainData raw)))
    (code : String) (h : code ∈ pairs.map Prod.snd) :
    resolve_station_name pairs code = some code := by
  rcases List.mem_map.1 h with ⟨p, hp, rfl⟩
  have hpB : p ∈ buildPairs (loadTrainData raw) := hperm.mem_iff.1 hp
  have hfix : pyNormalize p.2 = p.2 := (buildPairs_mem hpB).2.2.2
  unfold resolve_station_name
  rw [hfix, if_pos h]

/-- Witness for C6 at a concrete raw source (`" alpha "`/`" aa "` normalize
to `"ALPHA"`/`"AA"`). -/
theorem c6_witness :
    ("AA" : String) ∈ ([(("ALPHA" : String), ("AA" : String))].map Prod.snd) ∧
    resolve_station_name [("ALPHA", "AA")] "AA" = some "AA" :=
  ⟨by decide,
   c6_resolve_idempotent_on_codes c6Raw [("ALPHA", "AA")] (by decide) "AA" (by decide)⟩

/-- C9: every `some` result of `resolve` is a member of the store's set of
known station codes. -/
theorem c9_resolve_returns_known_code (pairs : List (String × String))
    (input c : String) (h : resolve_station_name pairs input = some c) :
    c ∈ pairs.map Prod.snd := by
  unfold resolve_station_name at h
  by_cases h1 : pyNormalize input ∈ pairs.map Prod.snd
  · rw [if_pos h1] at h
    injection h with h2
    rw [← h2]
    exact h1
  · rw [if_neg h1] at h
    cases h2 : pairs.find? (fun p => p.1 = pyNormalize input) with
    | some p =>
      rw [h2] at h
      injection h with h3
      rw [← h3]
      exact List.mem_map.2 ⟨p, List.mem_of_find?_eq_some h2, rfl⟩
    | none =>
      rw [h2] at h
      cases h3 : closeMatchBest (pyNormalize input).data
          ((pairs.map Prod.fst).map String.data) with
      | some best =>
        rw [h3] at h
        rcases Option.map_eq_some'.1 h with ⟨p, hfind, rfl⟩
        exact List.mem_map.2 ⟨p, List.mem_of_find?_eq_some hfind, rfl⟩
      | none =>
        rw [h3] at h
        cases h

/-- Witness for C9: an exact-name resolution lands in the code set. -/
theorem c9_witness : ("AA" : String) ∈ (exPairs.map Prod.snd) :=
  c9_resolve_returns_known_code exPairs "ALPHA" "AA" (by decide)

/-- C10: when the classified intent is not `train_search`, the response's
train list is empty, whatever the station spans resolve to. -/
theorem c10_non_search_intent_has_empty_trains (data : List Train)
    (pairs : List (String × String)) (message : String)
    (srcSpan dstSpan dateVal : Option String)
    (h : (chatbotCore data pairs message srcSpan dstSpan dateVal).intent ≠ "train_search") :
    (chatbotCore data pairs message srcSpan dstSpan dateVal).trains = [] := by
  unfold chatbotCore at h ⊢
  dsimp only at h ⊢
  rw [if_neg]
  · rfl
  · intro hand
    exact h hand.1

/-- Witness for C10: a `train_status` request whose spans both resolve to
known codes still gets an empty train list. -/
theorem c10_witness :
    resolve_station_name exPairs "ALPHA" = some "AA" ∧
    resolve_station_name exPairs "BETA" = some "BB" ∧
    exRespStatus.trains = [] :=
  ⟨by decide, by decide,
   c10_non_search_intent_has_empty_trains exData exPairs
     "running status from ALPHA to BETA" (some "ALPHA") (some "BETA") none
     (by decide)⟩

/-- C1 as stated is false on the code: a successful search produces entries
keyed `source_departure`/`destination_arrival` (not `departure_time`/
`arrival_time`), and the `entities` object has no `train_no` key at all. -/
theorem c1_counterexample :
    exResp.trains.length = 1 ∧
    "departure_time" ∉ (exResp.trains.headD []).map Prod.fst ∧
    "arrival_time" ∉ (exResp.trains.headD []).map Prod.fst ∧
    "train_no" ∉ exResp.entities.map Prod.fst := by decide

/-- C1 amended: for every request, each entry of the response's trains list
is an object with exactly the fields `train_no`, `train_name`, `source`,
`destination`, `source_departure` and `destination_arrival`, and the
response's entities object has exactly the fields `source`, `destination`
and `date` (so no `train_no` field). -/
theorem c1_amended_response_shape (data : List Train) (pairs : List (String × String))
    (message : String) (srcSpan dstSpan dateVal : Option String) :
    (chatbotCore data pairs message srcSpan dstSpan dateVal).entities.map Prod.fst =
      ["source", "destination", "date"] ∧
    ∀ entry ∈ (chatbotCore data pairs message srcSpan dstSpan dateVal).trains,
      entry.map Prod.fst =
        ["train_no", "train_name", "source", "destination",
         "source_departure", "destination_arrival"] := by
  constructor
  · rfl
  · intro entry he
    unfold chatbotCore at he
    dsimp only at he
    rcases List.mem_map.1 he with ⟨t, _, rfl⟩
    rfl

/-- Witness for the amended C1 at a concrete successful search. -/
theorem c1_amended_witness :
    exResp.entities.map Prod.fst = ["source", "destination", "date"] ∧
    ([("train_no", "101"), ("train_name", "EXP"), ("source", "AA"),
      ("destination", "BB"), ("source_departure", "10:00:00"),
      ("destination_arrival", "11:00:00")] : List (String × String)).map Prod.fst =
      ["train_no", "train_name", "source", "destination",
       "source_departure", "destination_arrival"] :=
  ⟨(c1_amended_response_shape exData exPairs "show me trains from ALPHA to BETA"
      (some "ALPHA") (some "BETA") none).1,
   (c1_amended_response_shape exData exPairs "show me trains from ALPHA to BETA"
      (some "ALPHA") (some "BETA") none).2 _ (by decide)⟩

set_option maxRecDepth 8192 in
/-- C2 as stated is false on the code: for the input `"CDEF"` no station
name meets the fuzzy cutoff, the (only) station name `"ABCDEFGH"` contains
the normalized input as a substring, and yet `resolve` returns unresolved
(`none`) rather than that station's code — the code has no substring
fallback step. -/
theorem c2_counterexample :
    (∀ name ∈ c2Pairs.map Prod.fst,
      meetsCutoff name.data (pyNormalize "CDEF").data = false) ∧
    hasSub "ABCDEFGH".data (pyNormalize "CDEF").data = true ∧
    resolve_station_name c2Pairs "CDEF" = none := by decide

/-- C2 amended: when no fuzzy match meets the 0.75 cutoff (and the input is
neither a known code nor an exact station name), `resolve` returns
unresolved, regardless of any substring containment. -/
theorem c2_amended_no_substring_fallback (pairs : List (String × String))
    (input : String)
    (hcode : pyNormalize input ∉ pairs.map Prod.snd)
    (hname : ∀ p ∈ pairs, p.1 ≠ pyNormalize input)
    (hfuzzy : ∀ name ∈ pairs.map Prod.fst,
      meetsCutoff name.data (pyNormalize input).data = false) :
    resolve_station_name pairs input = none := by
  unfold resolve_station_name
  rw [if_neg hcode]
  have hfind : pairs.find? (fun p => p.1 = pyNormalize input) = none := by
    rw [List.find?_eq_none]
    intro p hp
    simpa using hname p hp
  have hfilter : ((pairs.map Prod.fst).map String.data).filter
      (fun a => meetsCutoff a (pyNormalize input).data) = [] := by
    rw [List.filter_eq_nil_iff]
    intro a ha
    rcases List.mem_map.1 ha with ⟨name, hn, rfl⟩
    simp [hfuzzy name hn]
  have hcm : closeMatchBest (pyNormalize input).data
      ((pairs.map Prod.fst).map String.data) = none := by
    unfold closeMatchBest
    rw [hfilter]
    rfl
  rw [hfind, hcm]

set_option maxRecDepth 8192 in
/-- Witness for the amended C2 at the substring-containing index. -/
theorem c2_amended_witness : resolve_station_name c2Pairs "CDEF" = none :=
  c2_amended_no_substring_fallback c2Pairs "CDEF" (by decide) (by decide) (by decide)

/-- C7 as stated is false on the code: a stop record lacking a usable
station name is kept in its loaded route (with an empty name); it is only
the station index that drops it. -/
theorem c7_counterexample :
    (loadTrainData c7Raw).map
        (fun t => t.route.map (fun s => (s.station_name, s.station_code))) =
      [[("", "CC")]] ∧
    buildPairs (loadTrainData c7Raw) = [] := by decide

/-- C7 amended: during load, a stop record lacking a usable station name or
code is dropped from the station index only; the stop stays in its route
(every nonempty raw entry loads a train with all of its stop records), and
such a record does not abort the load. -/
theorem c7_amended_dropped_only_from_index (raw : Option (List (String × List RawStop))) :
    (∀ p ∈ buildPairs (loadTrainData raw), p.1 ≠ "" ∧ p.2 ≠ "") ∧
    (∀ entries, raw = some entries → ∀ entry ∈ entries, entry.2 ≠ [] →
      ∃ t ∈ loadTrainData raw,
        t.train_no = removeQuotes (pyStrip entry.1) ∧
        t.route.length = entry.2.length) := by
  constructor
  · intro p hp
    have h := buildPairs_mem hp
    exact ⟨h.1, h.2.1⟩
  · rintro entries rfl entry hentry hne
    cases hcase : entry.2 with
    | nil => exact absurd hcase hne
    | cons s0 rest =>
      refine ⟨{ train_no := removeQuotes (pyStrip entry.1),
                train_name := pyStrip (s0.trainName.getD ""),
                route := entry.2.map (fun st =>
                  { station_name := pyNormalize (st.stationName.getD ""),
                    station_code := pyNormalize (st.stationCode.getD ""),
                    arrival := removeQuotes (pyStrip (st.arrivalTime.getD "")),
                    departure := removeQuotes (pyStrip (st.departureTime.getD "")) }) },
              ?_, rfl, by simp [hcase]⟩
      unfold loadTrainData
      apply List.mem_filterMap.2
      refine ⟨entry, hentry, ?_⟩
      simp only [hcase]

/-- Witness for the amended C7: the nameless-stop source loads one train
with its one stop, and a populated index only holds nonempty pairs. -/
theorem c7_amended_witness :
    ((("ALPHA" : String), ("AA" : String)).1 ≠ "" ∧ ("ALPHA", "AA").2 ≠ "") ∧
    (∃ t ∈ loadTrainData c7Raw,
      t.train_no = removeQuotes (pyStrip "7") ∧ t.route.length = [c7Stop].length) :=
  ⟨(c7_amended_dropped_only_from_index c6Raw).1 ("ALPHA", "AA") (by decide),
   (c7_amended_dropped_only_from_index c7Raw).2 [("7", [c7Stop])] rfl
     ("7", [c7Stop]) (by decide) (by decide)⟩

/-- Least-index search (`findIdx?`) agrees with membership plus
`list.index` (`indexOf`). -/
theorem findIdxOf_eq (x : String) (l : List String) :
    l.findIdx? (fun c => c = x) =
      if x ∈ l then some (l.indexOf x) else none := by
  induction l with
  | nil => simp
  | cons a as ih =>
    rw [List.findIdx?_cons, List.findIdx?_succ]
    by_cases hax : a = x
    · subst hax
      simp [List.indexOf_cons]
    · have hpa : decide (a = x) = false := decide_eq_false hax
      have hbeq : (a == x) = false := beq_eq_false_iff_ne.2 hax
      have hxa : ¬ (x = a) := fun h => hax h.symm
      simp only [hpa, Bool.false_eq_true, if_false, ih]
      by_cases hmem : x ∈ as
      · rw [if_pos hmem, if_pos (List.mem_cons.2 (Or.inr hmem))]
        rw [List.indexOf_cons, hbeq, cond_false, Option.map_some']
      · have hnotin : x ∉ a :: as := by
          rw [List.mem_cons]
          rintro (h | h)
          · exact hxa h
          · exact hmem h
        rw [if_neg hmem, if_neg hnotin]
        rfl

/-- C3 as stated is false on the code: on the loop route `[C, A, C]` the
first occurrence of the source `A` (index 1) precedes an occurrence of the
destination `C` (index 2), yet the search excludes the route, because the
code compares against the first occurrence of `C` (index 0). -/
theorem c3_counterexample :
    (loopTrain.route.map (fun s => s.station_code)) = ["C", "A", "C"] ∧
    (loopTrain.route.map (fun s => s.station_code)).indexOf "A" = 1 ∧
    (loopTrain.route.map (fun s => s.station_code)).getD 2 "" = "C" ∧
    searchTrains loopData "A" "C" = [] := by decide

/-- C3 amended: search returns a result exactly for the routes in which
both codes occur and the first occurrence of `src` strictly precedes the
first occurrence of `dst`; the result carries the departure time at the
first `src` index and the arrival time at the first `dst` index. -/
theorem c3_amended_search_uses_first_indices (data : List Train) (src dst : String) :
    searchTrains data src dst = searchTrainsFirstIdx data src dst := by
  unfold searchTrains searchTrainsFirstIdx
  apply List.filterMap_congr
  intro train _
  dsimp only
  rw [findIdxOf_eq, findIdxOf_eq]
  by_cases hs : src ∈ train.route.map (fun s => s.station_code)
  · by_cases hd : dst ∈ train.route.map (fun s => s.station_code)
    · rw [if_pos hs, if_pos hd, if_pos ⟨hs, hd⟩]
    · rw [if_pos hs, if_neg hd, if_neg (fun hand => hd hand.2)]
  · by_cases hd : dst ∈ train.route.map (fun s => s.station_code)
    · rw [if_neg hs, if_pos hd, if_neg (fun hand => hs hand.1)]
    · rw [if_neg hs, if_neg hd, if_neg (fun hand => hs hand.1)]

/-- Inserting into a list leaves each equal-key filtered sublist intact
except for appending the new element in front of later equal keys. -/
theorem filter_orderedInsert_key (k : String) (x : TrainResult) :
    ∀ l : List TrainResult,
      (List.orderedInsert depLe x l).filter (fun t => decide (sortKey t = k)) =
        if sortKey x = k then x :: l.filter (fun t => decide (sortKey t = k))
        else l.filter (fun t => decide (sortKey t = k)) := by
  intro l
  induction l with
  | nil =>
    by_cases h : sortKey x = k <;> simp [List.orderedInsert, h]
  | cons y l ih =>
    by_cases hxy : depLe x y
    · rw [List.orderedInsert, if_pos hxy]
      by_cases hx : sortKey x = k <;> simp [List.filter_cons, hx]
    · rw [List.orderedInsert, if_neg hxy]
      by_cases hx : sortKey x = k
      · by_cases hy : sortKey y = k
        · exfalso
          apply hxy
          unfold depLe pyStrLe
          rw [hx, hy, strLtCp_irrefl]
          rfl
        · simp [List.filter_cons, hy, ih, hx]
      · simp [List.filter_cons, ih, hx]

/-- The stable insertion sort preserves each equal-key sublist of the input
(in input order). -/
theorem filter_insertionSort_key (k : String) (l : List TrainResult) :
    (l.insertionSort depLe).filter (fun t => decide (sortKey t = k)) =
      l.filter (fun t => decide (sortKey t = k)) := by
  induction l with
  | nil => rfl
  | cons x xs ih =>
    rw [List.insertionSort, filter_orderedInsert_key, ih]
    by_cases h : sortKey x = k <;> simp [List.filter_cons, h]

theorem validTime_ne_empty {s : String} (h : validTime s = true) : s ≠ "" := by
  intro he
  subst he
  cases h

theorem validTime_lt_sentinel {s : String} (h : validTime s = true) :
    strLtCp s.data ("99:99:99").data = true := by
  have hsd : ("99:99:99").data = ['9', '9', ':', '9', '9', ':', '9', '9'] := rfl
  rw [hsd]
  unfold validTime at h
  split at h
  case h_2 => cases h
  case h_1 h1 h2 c1 m1 m2 c2 p1 p2 heq =>
    rw [heq]
    simp only [Bool.and_eq_true, Bool.or_eq_true, decide_eq_true_eq] at h
    have hh := h.1.1.2
    have h9 : ('9' : Char).toNat = 57 := rfl
    have hlt : h1.toNat < 57 := by
      rcases hh with (h0 | h0) | h0
      · rw [h0]; decide
      · rw [h0]; decide
      · rw [h0.1]; decide
    rw [strLtCp]
    rw [h9]
    rw [if_pos hlt]

/-- C4 as stated is false on the code: a nonempty but unparseable departure
time is used verbatim as the sort key (the sentinel only replaces empty
values), so `"0X:00:00"` sorts before the valid `"10:00:00"`. -/
theorem c4_counterexample :
    (sortByDeparture (searchTrains mixedData "A" "B")).map
        (fun t => t.source_departure) = ["0X:00:00", "10:00:00"] ∧
    validTime "0X:00:00" = false ∧ validTime "10:00:00" = true := by decide

/-- C4 amended: search results are sorted ascending by the key "departure,
or the sentinel `"99:99:99"` when the departure is empty"; every result
with an empty (missing) departure sorts after every result with a
parseable time; results with equal keys keep the store's route-iteration
order (stable sort).  Nonempty unparseable departures sort by their
literal string value. -/
theorem c4_amended_sort_by_departure_key (data : List Train) (src dst : String) :
    List.Sorted depLe (sortByDeparture (searchTrains data src dst)) ∧
    (∀ i j : Fin (sortByDeparture (searchTrains data src dst)).length,
      validTime ((sortByDeparture (searchTrains data src dst)).get i).source_departure
        = true →
      ((sortByDeparture (searchTrains data src dst)).get j).source_departure = "" →
      (i : Nat) < (j : Nat)) ∧
    (∀ k : String,
      (sortByDeparture (searchTrains data src dst)).filter
          (fun t => decide (sortKey t = k)) =
        (searchTrains data src dst).filter (fun t => decide (sortKey t = k))) := by
  haveI : IsTotal TrainResult depLe := ⟨depLe_total⟩
  haveI : IsTrans TrainResult depLe := ⟨fun _ _ _ => depLe_trans⟩
  have hsorted : List.Sorted depLe (sortByDeparture (searchTrains data src dst)) :=
    List.sorted_insertionSort depLe _
  refine ⟨hsorted, ?_, fun k => filter_insertionSort_key k _⟩
  intro i j hvi hej
  have hne : ((sortByDeparture (searchTrains data src dst)).get i).source_departure
      ≠ "" := validTime_ne_empty hvi
  have hki : sortKey ((sortByDeparture (searchTrains data src dst)).get i) =
      ((sortByDeparture (searchTrains data src dst)).get i).source_departure := by
    unfold sortKey
    rw [if_neg hne]
  have hkj : sortKey ((sortByDeparture (searchTrains data src dst)).get j) =
      "99:99:99" := by
    unfold sortKey
    rw [if_pos hej]
  by_contra hij
  push_neg at hij
  rcases Nat.lt_or_ge (j : Nat) (i : Nat) with hji | hge
  · have hrel : depLe ((sortByDeparture (searchTrains data src dst)).get j)
        ((sortByDeparture (searchTrains data src dst)).get i) :=
      hsorted.rel_get_of_lt hji
    unfold depLe pyStrLe at hrel
    rw [hki, hkj] at hrel
    rw [validTime_lt_sentinel hvi] at hrel
    cases hrel
  · have heq : (i : Nat) = (j : Nat) := by omega
    have : i = j := Fin.ext heq
    subst this
    rw [hej] at hne
    exact hne rfl

/-- Witness for the amended C4: with one empty and one valid departure, the
valid-time result takes the earlier position. -/
theorem c4_amended_witness : (0 : Nat) < (1 : Nat) :=
  (c4_amended_sort_by_departure_key valEmptyData "A" "B").2.1
    ⟨0, by decide⟩ ⟨1, by decide⟩ (by decide) (by decide)

theorem scoredGt_irrefl (x w : List Char) : scoredGt x x w = false := by
  unfold scoredGt
  simp [strLtCp_irrefl]

theorem scoredGt_asymm {x y w : List Char} (h : scoredGt x y w = true) :
    scoredGt y x w = false := by
  unfold scoredGt at h ⊢
  by_cases h1 : matchTotal y w * (x.length + w.length) <
      matchTotal x w * (y.length + w.length)
  · rw [if_neg (by omega), if_pos h1]
  · rw [if_neg h1] at h
    by_cases h2 : matchTotal x w * (y.length + w.length) <
        matchTotal y w * (x.length + w.length)
    · rw [if_pos h2] at h
      cases h
    · rw [if_neg h2] at h
      rw [if_neg h2, if_neg h1]
      exact strLtCp_asymm _ _ h

/-- CPython `max` over scored candidates: if `m` beats every other element
(and whatever already sits in the accumulator), the fold returns `m`. -/
theorem foldMax_eq_of_max (w m : List Char) :
    ∀ (l : List (List Char)) (acc : Option (List Char)),
      (m ∈ l ∨ acc = some m) →
      (∀ x ∈ l, x ≠ m → scoredGt m x w = true) →
      (∀ x, acc = some x → x = m ∨ scoredGt m x w = true) →
      l.foldl (fun best a =>
        match best with
        | none => some a
        | some b => if scoredGt a b w then some a else some b) acc = some m := by
  intro l
  induction l with
  | nil =>
    intro acc h1 _ h3
    rcases h1 with h | h
    · cases h
    · exact h
  | cons a l ih =>
    intro acc h1 h2 h3
    rw [List.foldl_cons]
    by_cases ham : a = m
    · subst ham
      apply ih
      · -- the new accumulator holds a (= m) unless something at least as good sits there
        cases acc with
        | none => right; rfl
        | some b =>
          rcases h3 b rfl with hbm | hgt
          · subst hbm
            right
            simp [scoredGt_irrefl]
          · right
            simp [hgt]
      · intro x hx hne
        exact h2 x (List.mem_cons_of_mem a hx) hne
      · intro x hx
        cases acc with
        | none =>
          simp only at hx
          injection hx with hx
          exact Or.inl hx.symm
        | some b =>
          simp only at hx
          by_cases hgt : scoredGt a b w = true
          · rw [if_pos hgt] at hx
            injection hx with hx
            exact Or.inl hx.symm
          · rw [if_neg hgt] at hx
            injection hx with hx
            subst hx
            exact h3 b rfl
    · -- a ≠ m
      have hgma : scoredGt m a w = true := h2 a (List.mem_cons_self a l) ham
      apply ih
      · rcases h1 with hml | hacc
        · rcases List.mem_cons.1 hml with he | hm
          · exact absurd he.symm ham
          · exact Or.inl hm
        · right
          cases acc with
          | none => cases hacc
          | some b =>
            injection hacc with hacc
            subst hacc
            simp only
            rw [if_neg]
            rw [scoredGt_asymm hgma]
            exact Bool.false_ne_true
      · intro x hx hne
        exact h2 x (List.mem_cons_of_mem a hx) hne
      · intro x hx
        cases acc with
        | none =>
          simp only at hx
          injection hx with hx
          subst hx
          exact Or.inr hgma
        | some b =>
          simp only at hx
          by_cases hgt : scoredGt a b w = true
          · rw [if_pos hgt] at hx
            injection hx with hx
            subst hx
            exact Or.inr hgma
          · rw [if_neg hgt] at hx
            injection hx with hx
            subst hx
            exact h3 b rfl

set_option maxRecDepth 8192 in
/-- C8 as stated is false on the code: for the input `"ABCD"` the names
`"ABCX"` and `"ABCZ"` tie at exactly the 0.75 cutoff, `"ABCX"` is the
lexicographically smallest of the tie, yet `resolve` returns `"Z1"`, the
code of the lexicographically largest tied name (CPython's `max` keeps the
largest `(score, name)` tuple). -/
theorem c8_counterexample :
    meetsCutoff "ABCX".data (pyNormalize "ABCD").data = true ∧
    meetsCutoff "ABCZ".data (pyNormalize "ABCD").data = true ∧
    matchTotal "ABCX".data (pyNormalize "ABCD").data =
      matchTotal "ABCZ".data (pyNormalize "ABCD").data ∧
    strLtCp "ABCX".data "ABCZ".data = true ∧
    resolve_station_name c8Pairs "ABCD" = some "Z1" ∧
    (some ("Z1" : String) ≠ some ("X1" : String)) := by decide

/-- C8 amended: when several station names score at or above the cutoff,
`resolve` returns the first-listed code of the name that is maximal in the
`(score, name)` order — on score ties, the lexicographically LARGEST tied
name — independent of the index's iteration order (the hypotheses and the
conclusion only mention membership, never positions). -/
theorem c8_amended_tie_break_lex_largest (pairs : List (String × String))
    (input : String) (bname bcode : String)
    (hcode : pyNormalize input ∉ pairs.map Prod.snd)
    (hname : ∀ p ∈ pairs, p.1 ≠ pyNormalize input)
    (hb : (bname, bcode) ∈ pairs)
    (hq : meetsCutoff bname.data (pyNormalize input).data = true)
    (hmax : ∀ p ∈ pairs, p.1 ≠ bname →
      meetsCutoff p.1.data (pyNormalize input).data = true →
      scoredGt bname.data p.1.data (pyNormalize input).data = true)
    (huniq : ∀ p ∈ pairs, p.1 = bname → p.2 = bcode) :
    resolve_station_name pairs input = some bcode := by
  unfold resolve_station_name
  rw [if_neg hcode]
  have hfind : pairs.find? (fun p => p.1 = pyNormalize input) = none := by
    rw [List.find?_eq_none]
    intro p hp
    simpa using hname p hp
  rw [hfind]
  have hcm : closeMatchBest (pyNormalize input).data
      ((pairs.map Prod.fst).map String.data) = some bname.data := by
    unfold closeMatchBest
    apply foldMax_eq_of_max
    · left
      rw [List.mem_filter]
      exact ⟨List.mem_map.2 ⟨bname, List.mem_map.2 ⟨(bname, bcode), hb, rfl⟩, rfl⟩, hq⟩
    · intro x hx hne
      rw [List.mem_filter] at hx
      rcases List.mem_map.1 hx.1 with ⟨name, hn, rfl⟩
      rcases List.mem_map.1 hn with ⟨p, hp, rfl⟩
      have hpneq : p.1 ≠ bname := fun he => hne (by rw [he])
      exact hmax p hp hpneq hx.2
    · intro x hx
      cases hx
  rw [hcm]
  show (pairs.find? (fun p => p.1.data = bname.data)).map Prod.snd = some bcode
  cases hfind2 : pairs.find? (fun p => p.1.data = bname.data) with
  | none =>
    exfalso
    rw [List.find?_eq_none] at hfind2
    exact hfind2 (bname, bcode) hb (by simp)
  | some p =>
    have hpd : p.1.data = bname.data := by
      have hh := List.find?_some hfind2
      simpa using hh
    have hp1 : p.1 = bname := String.toList_inj.1 hpd
    have hpm : p ∈ pairs := List.mem_of_find?_eq_some hfind2
    rw [Option.map_some']
    rw [huniq p hpm hp1]

set_option maxRecDepth 8192 in
/-- Witness for the amended C8: the tied index resolves to the code of the
lexicographically larger tied name. -/
theorem c8_amended_witness : resolve_station_name c8Pairs "ABCD" = some "Z1" :=
  c8_amended_tie_break_lex_largest c8Pairs "ABCD" "ABCZ" "Z1"
    (by decide) (by decide) (by decide) (by decide) (by decide) (by decide)
